import Mathlib

/-!
Verification development for the index-building and assertion-equivalence core
of `mkgfd/utils.py` (SPINLab/RijkswaterstaatDataQualityTools).

The Python source is shallowly embedded: rdflib graph nodes become the
inductive type `Node`, rdflib graphs become lists of `Triple`s, Python dicts
become association lists, Python sets become duplicate-free accumulation on
lists (`nsAdd`), and Python exceptions become an explicit `Except` channel.
Each definition carries a comment pointing at the source construct it embeds.
-/

set_option maxHeartbeats 1000000

/-- An rdflib graph node: `URIRef`, `BNode`, or `Literal` (lexical form plus
optional datatype URI and optional language tag), as used by `mkgfd/utils.py`. -/
inductive Node where
  | uri (s : String)
  | bnode (s : String)
  | lit (lex : String) (dt : Option String) (lang : Option String)
deriving DecidableEq, Repr

/-- A graph triple `(subject, predicate, object)`. -/
structure Triple where
  s : Node
  p : Node
  o : Node
deriving DecidableEq, Repr

/-- Association-list lookup, modelling Python `dict.__getitem__` presence. -/
def lookupA {α β : Type} [DecidableEq α] : List (α × β) → α → Option β
  | [], _ => none
  | (k, v) :: t, x => if x = k then some v else lookupA t x

/-- Association-list update, modelling Python `dict.__setitem__`
(overwrite if the key is present, append otherwise). -/
def updateA {α β : Type} [DecidableEq α] : List (α × β) → α → β → List (α × β)
  | [], k, v => [(k, v)]
  | (k0, v0) :: t, k, v => if k = k0 then (k, v) :: t else (k0, v0) :: updateA t k v

/-- Python `set.add` on a duplicate-free list model of a set. -/
def nsAdd (x : Node) (s : List Node) : List Node :=
  if x ∈ s then s else x :: s

/-- `DictDefault` from `mkgfd/utils.py`: a dict that returns a fixed default
for unknown keys without storing them (`__missing__` returns `self._default`). -/
structure DictDefault (α β : Type) where
  dflt : β
  store : List (α × β)
deriving Repr

/-- `d[key]` when used purely for reading: stored value if present, else the
default (via `__missing__`). -/
def DictDefault.get {α β : Type} [DecidableEq α] (d : DictDefault α β) (k : α) : β :=
  (lookupA d.store k).getD d.dflt

/-- `d[key] = value`. -/
def DictDefault.set {α β : Type} [DecidableEq α] (d : DictDefault α β) (k : α) (v : β) :
    DictDefault α β :=
  ⟨d.dflt, updateA d.store k v⟩

/-- `key in d.keys()`: only explicitly stored keys. -/
def DictDefault.containsKey {α β : Type} [DecidableEq α] (d : DictDefault α β) (k : α) : Bool :=
  (lookupA d.store k).isSome

/-- The list of stored keys, `d.keys()`. -/
def DictDefault.keyList {α β : Type} (d : DictDefault α β) : List α :=
  d.store.map Prod.fst

/-- Python `d[key]` together with the dictionary state afterwards: on a miss,
`__missing__` returns `self._default` and performs no insertion (this is the
point where a `defaultdict` would instead store the default). -/
def DictDefault.getitem {α β : Type} [DecidableEq α] (d : DictDefault α β) (k : α) :
    β × DictDefault α β :=
  match lookupA d.store k with
  | some v => (v, d)
  | none => (d.dflt, d)

def rdfType : Node := .uri "http://www.w3.org/1999/02/22-rdf-syntax-ns#type"

def rdfsClass : Node := .uri "http://www.w3.org/2000/01/rdf-schema#Class"

/-- The XSD namespace, `http://www.w3.org/2001/XMLSchema#`. -/
def xsd (s : String) : String := "http://www.w3.org/2001/XMLSchema#" ++ s

def xsdString : Node := .uri (xsd "string")

def xsdAnyType : Node := .uri (xsd "anyType")

/-- The Literal-Datatype Index: `{'object-to-type': DictDefault(None),
'type-to-object': DictDefault(set())}`. -/
structure DataTypeMap where
  objectToType : DictDefault Node (Option Node)
  typeToObject : DictDefault Node (List Node)
deriving Repr

/-- One iteration of the loop body of `generate_data_type_map` for an object
node `o`.  Note on the guard: the source tests
`if dtype not in data_type_map.keys()`, i.e. membership of the datatype URIRef
among the two fixed string keys `'object-to-type'` / `'type-to-object'` of the
OUTER dict; an rdflib `URIRef` never compares equal to a plain `str`, so the
test is always true and the bucket `type-to-object[dtype]` is reset to a fresh
empty set on every iteration before `o` is added. -/
def dataTypeStep (m : DataTypeMap) (o : Node) : DataTypeMap :=
  match o with
  | .lit lex dt lang =>
    let onode : Node := .lit lex dt lang
    let dtype : Node :=
      match dt with
      | some s => .uri s
      | none => if lang ≠ none then xsdString else xsdAnyType
    let m1 : DataTypeMap := { m with typeToObject := m.typeToObject.set dtype [] }
    { objectToType := m1.objectToType.set onode (some dtype),
      typeToObject := m1.typeToObject.set dtype (nsAdd onode (m1.typeToObject.get dtype)) }
  | _ => m

/-- `generate_data_type_map(g)`: scan every object position; skip non-literals;
assign each literal its datatype (explicit tag, else `xsd:string` when a
language tag is present, else `xsd:anyType`) and populate both directions. -/
def generate_data_type_map (g : List Triple) : DataTypeMap :=
  (g.map (·.o)).foldl dataTypeStep ⟨⟨none, []⟩, ⟨[], []⟩⟩

/-- The Entity-Type Index: both directions are `DictDefault(set())`. -/
structure ObjectTypeMap where
  objectToType : DictDefault Node (List Node)
  typeToObject : DictDefault Node (List Node)
deriving Repr

/-- `list(g.objects(e, RDF.type))`: the objects of the `rdf:type` triples whose
subject is `e`. -/
def rdfTypeObjects (g : List Triple) (e : Node) : List Node :=
  (g.filter (fun t => t.s = e ∧ t.p = rdfType)).map (·.o)

/-- The class list used by `generate_object_type_map` for subject `e`:
its asserted classes, or `[RDFS.Class]` when none exist. -/
def ctypesOf (g : List Triple) (e : Node) : List Node :=
  let l := rdfTypeObjects g e
  if l.isEmpty then [rdfsClass] else l

/-- `if ctype not in object_type_map['type-to-object'].keys()`: write a fresh
empty set for a new class bucket. -/
def ensureT2O (ctype : Node) (m : ObjectTypeMap) : ObjectTypeMap :=
  if ¬ m.typeToObject.containsKey ctype then
    { m with typeToObject := m.typeToObject.set ctype [] }
  else m

/-- `if e not in object_type_map['object-to-type'].keys()`: write a fresh
empty set for a new entity. -/
def ensureO2T (e : Node) (m : ObjectTypeMap) : ObjectTypeMap :=
  if ¬ m.objectToType.containsKey e then
    { m with objectToType := m.objectToType.set e [] }
  else m

/-- The inner loop body of `generate_object_type_map`: ensure both keys exist
(writing a fresh empty set when absent), then add `e` to the class bucket and
the class to `e`'s set. -/
def addCtype (e : Node) (m : ObjectTypeMap) (ctype : Node) : ObjectTypeMap :=
  { objectToType := (ensureO2T e (ensureT2O ctype m)).objectToType.set e
      (nsAdd ctype ((ensureO2T e (ensureT2O ctype m)).objectToType.get e)),
    typeToObject := (ensureO2T e (ensureT2O ctype m)).typeToObject.set ctype
      (nsAdd e ((ensureO2T e (ensureT2O ctype m)).typeToObject.get ctype)) }

/-- The outer loop body of `generate_object_type_map` for one subject
occurrence `e`: `if not isinstance(e, URIRef): continue` — only `URIRef`
subjects are indexed (a `BNode` subject is skipped). -/
def processSubject (g : List Triple) (m : ObjectTypeMap) (e : Node) : ObjectTypeMap :=
  match e with
  | .uri _ => (ctypesOf g e).foldl (addCtype e) m
  | _ => m

/-- `generate_object_type_map(g)`: iterate the subject of every triple
(with multiplicity, as `g.subjects()` does) and index its classes. -/
def generate_object_type_map (g : List Triple) : ObjectTypeMap :=
  (g.map (·.s)).foldl (processSubject g) ⟨⟨[], []⟩, ⟨[], []⟩⟩

/-- One predicate's entry in the Predicate Index:
`{'forwards': DictDefault(set()), 'backwards': DictDefault(set())}`. -/
structure PredEntry where
  forwards : DictDefault Node (List Node)
  backwards : DictDefault Node (List Node)
deriving Repr

def emptyPredEntry : PredEntry := ⟨⟨[], []⟩, ⟨[], []⟩⟩

/-- `if predicate not in predicate_map.keys(): predicate_map[predicate] = ...`:
ensure the predicate has an entry with empty forward/backward `DictDefault`s. -/
def ensurePred (pm : List (Node × PredEntry)) (p : Node) : List (Node × PredEntry) :=
  if (lookupA pm p).isSome then pm else updateA pm p emptyPredEntry

/-- `forwards[lhs] = {rhs}` when `lhs` is new, else `forwards[lhs].add(rhs)`. -/
def updFwd (t : Triple) (e : PredEntry) : PredEntry :=
  { e with forwards :=
      if e.forwards.containsKey t.s then
        e.forwards.set t.s (nsAdd t.o (e.forwards.get t.s))
      else
        e.forwards.set t.s [t.o] }

/-- `backwards[rhs] = {lhs}` when `rhs` is new, else `backwards[rhs].add(lhs)`. -/
def updBwd (t : Triple) (e : PredEntry) : PredEntry :=
  { e with backwards :=
      if e.backwards.containsKey t.o then
        e.backwards.set t.o (nsAdd t.s (e.backwards.get t.o))
      else
        e.backwards.set t.o [t.s] }

/-- The loop body of `generate_predicate_map` for one triple: ensure the
predicate has an entry, then accumulate `rhs` into `forwards[lhs]` and `lhs`
into `backwards[rhs]` (fresh singleton when the inner key is new, `set.add`
otherwise). -/
def predStep (pm : List (Node × PredEntry)) (t : Triple) : List (Node × PredEntry) :=
  updateA (ensurePred pm t.p) t.p
    (updBwd t (updFwd t ((lookupA (ensurePred pm t.p) t.p).getD emptyPredEntry)))

/-- `generate_predicate_map(g)`: a plain dict (not a `DictDefault`) from
predicate to forward/backward adjacency. -/
def generate_predicate_map (g : List Triple) : List (Node × PredEntry) :=
  g.foldl predStep []

/-- A Python exception kind relevant to `cast_xsd`: the source catches only
`ValueError`; any other exception (notably `TypeError`) propagates. -/
inductive PyErr where
  | valueError
  | typeError
deriving DecidableEq, Repr

/-- The Python value a literal's `toPython()` can produce and `cast_xsd` can
return: a string, an `int`, a `float` (modelled as a rational), a
`datetime.date`, or a `datetime.datetime`. -/
inductive PyVal where
  | pstr (s : String)
  | pint (n : Int)
  | pfloat (q : Rat)
  | pdate (y m d : Nat)
  | pdatetime (y m d hh mm ss : Nat)
deriving DecidableEq, Repr

/-- Numeric value of a list of decimal digit characters. -/
def digitsVal (cs : List Char) : Nat :=
  cs.foldl (fun a c => a * 10 + (c.toNat - 48)) 0

/-- Python whitespace for `str.strip()` (space, tab, newline, carriage return,
vertical tab, form feed). -/
def isPySpace (c : Char) : Bool :=
  c.toNat = 32 || c.toNat = 9 || c.toNat = 10 || c.toNat = 13 || c.toNat = 11 || c.toNat = 12

/-- `str.strip()` on the character list: drop leading and trailing whitespace. -/
def stripChars (l : List Char) : List Char :=
  ((l.dropWhile isPySpace).reverse.dropWhile isPySpace).reverse

/-- ASCII lowering of one character, modelling `str.lower()` pointwise. -/
def pyLowerChar (c : Char) : Char :=
  if 65 ≤ c.toNat ∧ c.toNat ≤ 90 then Char.ofNat (c.toNat + 32) else c

/-- `str.lower()`. -/
def pyLower (l : List Char) : List Char := l.map pyLowerChar

/-- Lowercase digit string of a natural number (the digits of Python
`str(int)` for a non-negative value). -/
def natChars (n : Nat) : List Char :=
  if _h : n < 10 then [Nat.digitChar n]
  else natChars (n / 10) ++ [Nat.digitChar (n % 10)]
termination_by n
decreasing_by exact Nat.div_lt_self (by omega) (by omega)

/-- Python `str(int)`. -/
def pyIntChars (n : Int) : List Char :=
  if n < 0 then '-' :: natChars n.natAbs else natChars n.natAbs

/-- Zero-padded two-digit print, as in `datetime.isoformat`. -/
def pad2 (n : Nat) : List Char := [Nat.digitChar (n / 10 % 10), Nat.digitChar (n % 10)]

/-- Zero-padded four-digit print, as in `datetime.isoformat`. -/
def pad4 (n : Nat) : List Char :=
  [Nat.digitChar (n / 1000 % 10), Nat.digitChar (n / 100 % 10),
   Nat.digitChar (n / 10 % 10), Nat.digitChar (n % 10)]

/-- `datetime(y,m,d,hh,mm,ss).isoformat()`, `YYYY-MM-DDTHH:MM:SS`. -/
def isoChars (y m d hh mm ss : Nat) : List Char :=
  pad4 y ++ '-' :: pad2 m ++ '-' :: pad2 d ++ 'T' :: pad2 hh ++ ':' :: pad2 mm ++ ':' :: pad2 ss

/-- Parse a two-digit field. -/
def parse2 (a b : Char) : Option Nat :=
  if a.isDigit && b.isDigit then some (digitsVal [a, b]) else none

/-- Parse a four-digit field. -/
def parse4 (a b c d : Char) : Option Nat :=
  if a.isDigit && b.isDigit && c.isDigit && d.isDigit then some (digitsVal [a, b, c, d]) else none

/-- `datetime.fromisoformat` on the character list: accepts `YYYY-MM-DD`
(midnight) and `YYYY-MM-DDTHH:MM:SS`, validating field ranges; anything else
is a `ValueError`.  (Fractional seconds and offsets are outside this model.) -/
def parseIsoChars : List Char → Option (Nat × Nat × Nat × Nat × Nat × Nat)
  | [y1, y2, y3, y4, '-', m1, m2, '-', d1, d2] => do
    let y ← parse4 y1 y2 y3 y4
    let m ← parse2 m1 m2
    let d ← parse2 d1 d2
    if 1 ≤ m ∧ m ≤ 12 ∧ 1 ≤ d ∧ d ≤ 31 then pure (y, m, d, 0, 0, 0) else none
  | [y1, y2, y3, y4, '-', m1, m2, '-', d1, d2, 'T', h1, h2, ':', n1, n2, ':', s1, s2] => do
    let y ← parse4 y1 y2 y3 y4
    let m ← parse2 m1 m2
    let d ← parse2 d1 d2
    let hh ← parse2 h1 h2
    let mm ← parse2 n1 n2
    let ss ← parse2 s1 s2
    if 1 ≤ m ∧ m ≤ 12 ∧ 1 ≤ d ∧ d ≤ 31 ∧ hh ≤ 23 ∧ mm ≤ 59 ∧ ss ≤ 59 then
      pure (y, m, d, hh, mm, ss)
    else none
  | _ => none

/-- Digits of a nonempty all-digit character list, else `none`. -/
def parseDigits (cs : List Char) : Option Nat :=
  if cs ≠ [] ∧ cs.all (·.isDigit) then some (digitsVal cs) else none

/-- Unsigned part of Python `float(str)`: digits with an optional single
decimal point (`"1"`, `"1.5"`, `"1."`, `".5"`).  Exponents and the named
values are outside this model. -/
def parseUnsignedFloat (cs : List Char) : Option Rat :=
  match cs.splitOn '.' with
  | [intp] => (parseDigits intp).map (fun n => (n : Rat))
  | [intp, fracp] =>
    if intp = [] ∧ fracp = [] then none
    else if intp.all (·.isDigit) ∧ fracp.all (·.isDigit) then
      some ((digitsVal intp : Rat) + (digitsVal fracp : Rat) / ((10 : Rat) ^ fracp.length))
    else none
  | _ => none

/-- Python `float(str)`: surrounding whitespace ignored, optional sign. -/
def parseFloat (s : String) : Option Rat :=
  match stripChars s.data with
  | '-' :: rest => (parseUnsignedFloat rest).map Neg.neg
  | '+' :: rest => parseUnsignedFloat rest
  | rest => parseUnsignedFloat rest

/-- Python `str(node)` for the values `cast_xsd` handles. -/
def pyStr : PyVal → String
  | .pstr s => s
  | .pint n => ⟨pyIntChars n⟩
  | .pfloat q => toString q
  | .pdate y m d => ⟨pad4 y ++ '-' :: pad2 m ++ '-' :: pad2 d⟩
  | .pdatetime y m d hh mm ss => ⟨isoChars y m d hh mm ss⟩

/-- Python `float(node)`: identity on floats, exact on ints, parse on strings
(`ValueError` on failure), and `TypeError` on date/datetime objects. -/
def pyFloat : PyVal → Except PyErr PyVal
  | .pfloat q => .ok (.pfloat q)
  | .pint n => .ok (.pfloat (n : Rat))
  | .pstr s =>
    match parseFloat s with
    | some q => .ok (.pfloat q)
    | none => .error .valueError
  | .pdate _ _ _ => .error .typeError
  | .pdatetime _ _ _ _ _ _ => .error .typeError

/-- `isinstance(node, date)`: `datetime.datetime` is a subclass of
`datetime.date`, so both kinds qualify. -/
def isDateInstance : PyVal → Bool
  | .pdate _ _ _ => true
  | .pdatetime _ _ _ _ _ _ => true
  | _ => false

/-- `datetime.combine(node, time()).isoformat()`: `combine` ignores the time
components of a `datetime` argument, so the result is always the date at
midnight. -/
def combineMidnightIso : PyVal → String
  | .pdate y m d => ⟨isoChars y m d 0 0 0⟩
  | .pdatetime y m d _ _ _ => ⟨isoChars y m d 0 0 0⟩
  | _ => ""

/-- `datetime.fromisoformat(node)`: parses a string (`ValueError` on a bad
lexical form), raises `TypeError` on any non-string argument. -/
def fromisoformatVal : PyVal → Except PyErr PyVal
  | .pstr s =>
    match parseIsoChars s.data with
    | some (y, m, d, hh, mm, ss) => .ok (.pdatetime y m d hh mm ss)
    | none => .error .valueError
  | _ => .error .typeError

/-- Modelled from the spec: the datatype families `XSD_NUMERIC`,
`XSD_DATETIME`, `XSD_DATEFRAG` and `XSD_STRING` are imported from
`mkgfd.multimodal`, which is not in `src/`; per spec section 4.2 they are the
numeric, datetime, date-fragment and string families of XSD datatypes. -/
def XSD_NUMERIC : List String :=
  [xsd "integer", xsd "decimal", xsd "double", xsd "float", xsd "int", xsd "long",
   xsd "nonNegativeInteger", xsd "positiveInteger"]

/-- Modelled from the spec: see `XSD_NUMERIC`. -/
def XSD_DATETIME : List String := [xsd "dateTime", xsd "dateTimeStamp", xsd "date"]

/-- Modelled from the spec: see `XSD_NUMERIC`. -/
def XSD_DATEFRAG : List String := [xsd "gMonthDay", xsd "gMonth", xsd "gDay"]

/-- Modelled from the spec: see `XSD_NUMERIC`. -/
def XSD_STRING : List String := [xsd "string", xsd "normalizedString", xsd "anyURI"]

/-- Modelled from the spec: `gFrag_to_days` lives in `mkgfd.timeutils`, which
is not in `src/`.  Per spec sections 4.2 and 6 it converts a date-fragment
string (such as `"--05-20"`) keyed by its fragment datatype into an integer
day count and may fail, which the model signals with `none`. -/
def gFragChars (l : List Char) (dtype : String) : Option Int :=
  match l with
  | ['-', '-', a, b, '-', c, d] =>
    if (a.isDigit && b.isDigit && c.isDigit && d.isDigit) && dtype = xsd "gMonthDay" then
      some (((digitsVal [a, b] - 1) * 31 + digitsVal [c, d] : Nat))
    else none
  | ['-', '-', a, b] =>
    if (a.isDigit && b.isDigit) && dtype = xsd "gMonth" then
      some (((digitsVal [a, b] - 1) * 31 : Nat))
    else none
  | ['-', '-', '-', a, b] =>
    if (a.isDigit && b.isDigit) && dtype = xsd "gDay" then
      some ((digitsVal [a, b] : Nat))
    else none
  | _ => none

/-- See `gFragChars`; the routine receives `str(node)` from `cast_xsd`. -/
def gFrag_to_days (s : String) (dtype : String) : Option Int :=
  gFragChars s.data dtype

/-- `cast_xsd(node, dtype)` from `mkgfd/utils.py`, at the level of the Python
value of the literal (the leading `node = node.toPython()` maps the rdflib
literal to that value).  Each family is wrapped in `try/except ValueError`,
so a `ValueError` leaves the current value in place while any other exception
propagates.  In the datetime family the `except` is reached only after the
`isinstance(node, date)` reassignment, so on a `ValueError` the function
returns the possibly reassigned value. -/
def cast_xsd (node : PyVal) (dtype : String) : Except PyErr PyVal :=
  if dtype ∈ XSD_NUMERIC then
    match pyFloat node with
    | .ok v => .ok v
    | .error .valueError => .ok node
    | .error .typeError => .error .typeError
  else if dtype ∈ XSD_DATETIME then
    match fromisoformatVal (if isDateInstance node then PyVal.pstr (combineMidnightIso node) else node) with
    | .ok v => .ok v
    | .error .valueError =>
      .ok (if isDateInstance node then PyVal.pstr (combineMidnightIso node) else node)
    | .error .typeError => .error .typeError
  else if dtype ∈ XSD_DATEFRAG then
    match gFrag_to_days (pyStr node) dtype with
    | some n => .ok (.pint n)
    | none => .ok node
  else if dtype ∈ XSD_STRING then
    .ok (.pstr ⟨pyLower (stripChars (pyStr node).data)⟩)
  else
    .ok node

/-- Modelled from the spec: `mkgfd.structures` (not in `src/`) declares
`TypeVariable` with subclasses `ObjectTypeVariable`, `DataTypeVariable` and
`MultiModalNode`, each carrying a `type` attribute; an assertion endpoint is
either such a variable or a concrete resource (spec section 3). -/
inductive Term where
  | res (n : Node)
  | objVar (t : Node)
  | dataVar (t : Node)
  | mmNode (t : Node)
deriving DecidableEq, Repr

/-- Modelled from the spec: an `Assertion` is an ordered triple
`(lhs, predicate, rhs)` (spec section 3); `isEquivalent` and
`predicate_frequency` access the `lhs`, `predicate` and `rhs` attributes. -/
structure Assertion where
  lhs : Term
  predicate : Node
  rhs : Term
deriving DecidableEq, Repr

/-- The cache handed to the Equivalence Engine: references to the
Entity-Type Index (`object_type_map`) and Literal-Datatype Index
(`data_type_map`). -/
structure Cache where
  object_type_map : ObjectTypeMap
  data_type_map : DataTypeMap
deriving Repr

/-- `isSameType(resourceA, resourceB, cache)` from `mkgfd/utils.py`: two
sequential `if` blocks.  With `resourceA` an `ObjectTypeVariable`, test that
`resourceB` is exactly a `URIRef` indexed in the Entity-Type Index and that
`resourceA.type` occurs among its classes; with `resourceA` a
`DataTypeVariable` or `MultiModalNode`, test that `resourceB` is exactly a
`Literal` indexed in the Literal-Datatype Index with recorded datatype equal
to `resourceA.type`; otherwise `False`. -/
def isSameType (resourceA resourceB : Term) (c : Cache) : Bool :=
  (match resourceA, resourceB with
   | .objVar t, .res (Node.uri u) =>
     c.object_type_map.objectToType.containsKey (.uri u) &&
       (c.object_type_map.objectToType.get (.uri u)).contains t
   | _, _ => false) ||
  (match resourceA, resourceB with
   | .dataVar t, .res (Node.lit lex dt lang) =>
     c.data_type_map.objectToType.containsKey (.lit lex dt lang) &&
       (c.data_type_map.objectToType.get (.lit lex dt lang) == some t)
   | .mmNode t, .res (Node.lit lex dt lang) =>
     c.data_type_map.objectToType.containsKey (.lit lex dt lang) &&
       (c.data_type_map.objectToType.get (.lit lex dt lang) == some t)
   | _, _ => false)

/-- The guard of `isEquivalent`: both left-hand sides are
`ObjectTypeVariable`s with equal `type`. -/
def lhsGate (a b : Term) : Bool :=
  match a, b with
  | .objVar t1, .objVar t2 => t1 == t2
  | _, _ => false

/-- The `type` attribute, defined exactly on `TypeVariable` instances. -/
def tvType : Term → Option Node
  | .objVar t => some t
  | .dataVar t => some t
  | .mmNode t => some t
  | .res _ => none

/-- Both right-hand sides are `TypeVariable` instances (of any variant) with
equal `type`. -/
def rhsBothTypeVar (a b : Term) : Bool :=
  match tvType a, tvType b with
  | some t1, some t2 => t1 == t2
  | _, _ => false

/-- `isEquivalent(assertionA, assertionB, cache)` from `mkgfd/utils.py`:
return `False` unless both left-hand sides are `ObjectTypeVariable`s of the
same type with the same predicate; then accept when the right-hand sides are
equal, are type variables with the same type, or `isSameType` holds in either
orientation. -/
def isEquivalent (assertionA assertionB : Assertion) (c : Cache) : Bool :=
  if !(lhsGate assertionA.lhs assertionB.lhs) || assertionA.predicate != assertionB.predicate then
    false
  else
    (assertionA.rhs == assertionB.rhs) ||
    rhsBothTypeVar assertionA.rhs assertionB.rhs ||
    isSameType assertionA.rhs assertionB.rhs c ||
    isSameType assertionB.rhs assertionA.rhs c

/-- `predicate_frequency(predicate_map, assertion, assertion_domain)`:
`len(assertion_domain & predicate_map[assertion.predicate]['forwards'].keys())`.
`predicate_map` is a plain dict, so a predicate with no entry raises
`KeyError`, modelled by `none`. -/
def predicate_frequency (predicate_map : List (Node × PredEntry)) (assertion : Assertion)
    (assertion_domain : List Node) : Option Nat :=
  match lookupA predicate_map assertion.predicate with
  | some e => some ((assertion_domain.filter (fun s => e.forwards.containsKey s)).length)
  | none => none

/-- Heap cell read (out-of-range reads the empty set); used to model Python
object identity for the `DictDefault` default. -/
def cellsGet : List (List Node) → Nat → List Node
  | [], _ => []
  | c :: _, 0 => c
  | _ :: t, n + 1 => cellsGet t n

/-- Heap cell write (out-of-range is a no-op). -/
def cellsSet : List (List Node) → Nat → List Node → List (List Node)
  | [], _, _ => []
  | _ :: t, 0, v => v :: t
  | c :: t, n + 1, v => c :: cellsSet t n v

/-- A heap of mutable Python `set` objects, addressed by reference.  This
models the aliasing behaviour of `DictDefault.__missing__`, which returns
`self._default` — the same object every time — rather than a copy. -/
structure SetHeap where
  cells : List (List Node)
deriving Repr

/-- Read the set object behind reference `r`. -/
def SetHeap.deref (h : SetHeap) (r : Nat) : List Node := cellsGet h.cells r

/-- `obj.add(x)` performed on the set object behind reference `r`. -/
def SetHeap.addAt (h : SetHeap) (r : Nat) (x : Node) : SetHeap :=
  ⟨cellsSet h.cells r (nsAdd x (cellsGet h.cells r))⟩

/-- A `DictDefault` whose values and default are references into a `SetHeap`:
the reference-level view of `DictDefault(set())`. -/
structure DictDefaultRef where
  dfltRef : Nat
  store : List (Node × Nat)
deriving Repr

/-- `d[key]` at the reference level: `__missing__` hands back the reference
`self._default` itself. -/
def DictDefaultRef.getitem (d : DictDefaultRef) (k : Node) : Nat :=
  match lookupA d.store k with
  | some r => r
  | none => d.dfltRef

/-- `key in d.keys()` at the reference level. -/
def DictDefaultRef.containsKey (d : DictDefaultRef) (k : Node) : Bool :=
  (lookupA d.store k).isSome

def exS1 : Node := .uri "http://example.org/s1"

def exS2 : Node := .uri "http://example.org/s2"

def exP : Node := .uri "http://example.org/p"

def exPerson : Node := .uri "http://example.org/Person"

def exHasName : Node := .uri "http://example.org/hasName"

def litAlice : Node := .lit "Alice" none none

def litALICE : Node := .lit "ALICE" none none

/-- `(?x:Person, hasName, "Alice")`. -/
def assertionAlice : Assertion := ⟨.objVar exPerson, exHasName, .res litAlice⟩

/-- `(?x:Person, hasName, "ALICE")`. -/
def assertionALICE : Assertion := ⟨.objVar exPerson, exHasName, .res litALICE⟩

/-- A snapshot containing the two name literals as objects. -/
def gNames : List Triple := [⟨exS1, exHasName, litAlice⟩, ⟨exS2, exHasName, litALICE⟩]

/-- The cache built from `gNames` by the two index builders. -/
def cacheNames : Cache := ⟨generate_object_type_map gNames, generate_data_type_map gNames⟩

def litIntA : Node := .lit "1" (some (xsd "integer")) none

def litIntB : Node := .lit "2" (some (xsd "integer")) none

/-- Two distinct literals with the same explicit datatype. -/
def gInts : List Triple := [⟨exS1, exP, litIntA⟩, ⟨exS2, exP, litIntB⟩]

/-- A snapshot whose only subject is a blank node. -/
def gBnode : List Triple := [⟨.bnode "b", exP, .uri "http://example.org/o"⟩]

/-- An assertion whose predicate is `exP`, for support counting. -/
def assertionOnP : Assertion := ⟨.objVar exPerson, exP, .dataVar xsdString⟩

/-- The forward/backward consistency property of the Predicate Index for one
triple. -/
def pmHolds (pm : List (Node × PredEntry)) (t : Triple) : Prop :=
  ∃ e, lookupA pm t.p = some e ∧ t.o ∈ e.forwards.get t.s ∧ t.s ∈ e.backwards.get t.o

/-- Every entry of the predicate map keeps the empty-set default installed by
`emptyPredEntry`. -/
def pmDfltsEmpty (pm : List (Node × PredEntry)) : Prop :=
  ∀ p e, lookupA pm p = some e → e.forwards.dflt = [] ∧ e.backwards.dflt = []

/-- Both directions of the Entity-Type Index keep the empty-set default. -/
def otmWF (m : ObjectTypeMap) : Prop :=
  m.objectToType.dflt = [] ∧ m.typeToObject.dflt = []

/-- Loop invariant of `generate_object_type_map` after the subject occurrences
in `done` have been processed: a node has recorded classes exactly when it is
a `URIRef` among the processed subjects, and then its classes are exactly
`ctypesOf`, mirrored in the class buckets. -/
def otmInv (g : List Triple) (done : List Node) (m : ObjectTypeMap) : Prop :=
  otmWF m ∧
  (∀ e x, x ∈ m.objectToType.get e ↔ ((∃ u, e = Node.uri u) ∧ e ∈ done ∧ x ∈ ctypesOf g e)) ∧
  (∀ c e, e ∈ m.typeToObject.get c ↔ ((∃ u, e = Node.uri u) ∧ e ∈ done ∧ c ∈ ctypesOf g e))

/-- A small stored map for witnesses: default `0`, one stored pair `(1, 5)`. -/
def ddEx : DictDefault Nat Nat := ⟨0, [(1, 5)]⟩

/-- A reference-level map for witnesses: default set at heap address `0`, key
`exS1` stored at address `1`. -/
def ddRefEx : DictDefaultRef := ⟨0, [(exS1, 1)]⟩

/-- A two-cell heap for witnesses. -/
def heapEx : SetHeap := ⟨[[], [exP]]⟩

theorem lookupA_updateA_self {α β : Type} [DecidableEq α] (l : List (α × β)) (k : α) (v : β) :
    lookupA (updateA l k v) k = some v := by
  induction l with
  | nil => simp [updateA, lookupA]
  | cons p t ih =>
    obtain ⟨k0, v0⟩ := p
    by_cases h : k = k0
    · subst h; simp [updateA, lookupA]
    · simp [updateA, lookupA, h, ih]

theorem lookupA_updateA_ne {α β : Type} [DecidableEq α] (l : List (α × β)) (k k2 : α) (v : β)
    (h : k2 ≠ k) : lookupA (updateA l k v) k2 = lookupA l k2 := by
  induction l with
  | nil => simp [updateA, lookupA, h]
  | cons p t ih =>
    obtain ⟨k0, v0⟩ := p
    by_cases hk : k = k0
    · subst hk; simp [updateA, lookupA, h, ih]
    · by_cases hk2 : k2 = k0 <;> simp [updateA, lookupA, hk, hk2, ih]

theorem lookupA_isSome_iff_mem_keys {α β : Type} [DecidableEq α] (l : List (α × β)) (k : α) :
    (lookupA l k).isSome = true ↔ k ∈ l.map Prod.fst := by
  induction l with
  | nil => simp [lookupA]
  | cons p t ih =>
    obtain ⟨k0, v0⟩ := p
    by_cases h : k = k0 <;> simp [lookupA, h, ih]

theorem mem_nsAdd (x y : Node) (s : List Node) : y ∈ nsAdd x s ↔ y = x ∨ y ∈ s := by
  unfold nsAdd
  split
  · constructor
    · exact Or.inr
    · rintro (rfl | hy)
      · assumption
      · assumption
  · simp [List.mem_cons]

theorem beq_swap {α : Type} [DecidableEq α] (x y : α) : (x == y) = (y == x) := by
  by_cases hxy : x = y
  · subst hxy; rfl
  · have h1 : (x == y) = false := by simp [hxy]
    have h2 : (y == x) = false := by simp [Ne.symm hxy]
    rw [h1, h2]

theorem DictDefault.get_set_self {α β : Type} [DecidableEq α] (d : DictDefault α β) (k : α)
    (v : β) : (d.set k v).get k = v := by
  unfold DictDefault.get DictDefault.set
  simp [lookupA_updateA_self]

theorem DictDefault.get_set_ne {α β : Type} [DecidableEq α] (d : DictDefault α β) (k k2 : α)
    (v : β) (h : k2 ≠ k) : (d.set k v).get k2 = d.get k2 := by
  unfold DictDefault.get DictDefault.set
  simp [lookupA_updateA_ne _ _ _ _ h]

theorem DictDefault.dflt_set {α β : Type} [DecidableEq α] (d : DictDefault α β) (k : α)
    (v : β) : (d.set k v).dflt = d.dflt := rfl

theorem DictDefault.containsKey_set_self {α β : Type} [DecidableEq α] (d : DictDefault α β)
    (k : α) (v : β) : (d.set k v).containsKey k = true := by
  unfold DictDefault.containsKey DictDefault.set
  simp [lookupA_updateA_self]

theorem DictDefault.containsKey_set_ne {α β : Type} [DecidableEq α] (d : DictDefault α β)
    (k k2 : α) (v : β) (h : k2 ≠ k) : (d.set k v).containsKey k2 = d.containsKey k2 := by
  unfold DictDefault.containsKey DictDefault.set
  simp [lookupA_updateA_ne _ _ _ _ h]

theorem DictDefault.get_of_not_containsKey {α β : Type} [DecidableEq α] (d : DictDefault α β)
    (k : α) (h : d.containsKey k = false) : d.get k = d.dflt := by
  unfold DictDefault.containsKey at h
  unfold DictDefault.get
  cases hl : lookupA d.store k with
  | none => rfl
  | some v => rw [hl] at h; simp at h

theorem DictDefault.get_of_lookupA {α β : Type} [DecidableEq α] (d : DictDefault α β)
    (k : α) (v : β) (h : lookupA d.store k = some v) : d.get k = v := by
  unfold DictDefault.get
  rw [h]; rfl

/-- C8: `DictDefault` lookup of a missing key returns the configured default
and leaves the map unchanged (nothing is inserted by the lookup); lookup of a
stored key returns the stored value; `set` stores normally; and `containsKey`
reflects only explicitly stored keys. -/
theorem dictDefault_contract {α β : Type} [DecidableEq α]
    (d : DictDefault α β) (k k2 : α) (v w : β)
    (h : d.containsKey k = false) (h2 : lookupA d.store k2 = some w) :
    d.getitem k = (d.dflt, d) ∧
    d.getitem k2 = (w, d) ∧
    (d.set k v).getitem k = (v, d.set k v) ∧
    (d.set k v).containsKey k = true ∧
    d.containsKey k2 = true := by
  unfold DictDefault.containsKey at h ⊢
  refine ⟨?_, ?_, ?_, ?_, ?_⟩
  · unfold DictDefault.getitem
    cases hl : lookupA d.store k with
    | none => rfl
    | some v0 => rw [hl] at h; simp at h
  · unfold DictDefault.getitem
    rw [h2]
  · unfold DictDefault.getitem DictDefault.set
    simp [lookupA_updateA_self]
  · unfold DictDefault.set
    simp [lookupA_updateA_self]
  · rw [h2]; rfl

theorem dictDefault_contract_witness :
    ddEx.getitem 2 = (0, ddEx) ∧
    ddEx.getitem 1 = (5, ddEx) ∧
    (ddEx.set 2 7).getitem 2 = (7, ddEx.set 2 7) ∧
    (ddEx.set 2 7).containsKey 2 = true ∧
    ddEx.containsKey 1 = true := by
  have h := dictDefault_contract ddEx 2 1 7 5 (by decide) (by decide)
  exact h

theorem cellsGet_cellsSet_self (l : List (List Node)) (r : Nat) (v : List Node)
    (h : r < l.length) : cellsGet (cellsSet l r v) r = v := by
  induction l generalizing r with
  | nil => simp at h
  | cons c t ih =>
    cases r with
    | zero => rfl
    | succ n => exact ih n (by simpa using h)

theorem DictDefaultRef.getitem_missing (d : DictDefaultRef) (k : Node)
    (h : d.containsKey k = false) : d.getitem k = d.dfltRef := by
  unfold DictDefaultRef.containsKey at h
  unfold DictDefaultRef.getitem
  cases hl : lookupA d.store k with
  | none => rfl
  | some r => rw [hl] at h; simp at h

/-- C10: at the reference level, `__missing__` returns `self._default` itself,
so two lookups of missing keys yield the very same set object, and a mutation
performed through the object returned for one missing key is observed by a
later lookup of any other missing key. -/
theorem dictDefaultRef_shared_default (d : DictDefaultRef) (h : SetHeap) (k1 k2 x : Node)
    (h1 : d.containsKey k1 = false) (h2 : d.containsKey k2 = false)
    (hr : d.dfltRef < h.cells.length) :
    d.getitem k1 = d.getitem k2 ∧
    x ∈ (h.addAt (d.getitem k1) x).deref (d.getitem k2) := by
  rw [DictDefaultRef.getitem_missing d k1 h1, DictDefaultRef.getitem_missing d k2 h2]
  refine ⟨rfl, ?_⟩
  unfold SetHeap.addAt SetHeap.deref
  rw [cellsGet_cellsSet_self _ _ _ (by simpa using hr)]
  rw [mem_nsAdd]
  exact Or.inl rfl

theorem dictDefaultRef_shared_default_witness :
    ddRefEx.getitem exS2 = ddRefEx.getitem exP ∧
    exS1 ∈ (heapEx.addAt (ddRefEx.getitem exS2) exS1).deref (ddRefEx.getitem exP) :=
  dictDefaultRef_shared_default ddRefEx heapEx exS2 exP exS1 (by decide) (by decide) (by decide)

/-- C1: the code violates the claimed bidirectional consistency.  With two
distinct literals of the same explicit datatype, the first literal gets its
datatype in `object-to-type` but is in NO `type-to-object` bucket (so not in
exactly one), because the guard `dtype not in data_type_map.keys()` tests the
outer bookkeeping dict and therefore resets the bucket on every literal. -/
theorem generate_data_type_map_drops_earlier_literal :
    (generate_data_type_map gInts).objectToType.get litIntA = some (.uri (xsd "integer")) ∧
    litIntA ∉ (generate_data_type_map gInts).typeToObject.get (.uri (xsd "integer")) ∧
    (generate_data_type_map gInts).typeToObject.get (.uri (xsd "integer")) = [litIntB] := by
  decide

/-- C2 counterexample: on the two name assertions whose literals both
normalize to `"alice"`, `isEquivalent` does NOT return true — the claim that
normalization is applied before the right-hand-side comparison fails on the
code, which compares the literals raw. -/
theorem isEquivalent_alice_not_true :
    ¬ (isEquivalent assertionAlice assertionALICE cacheNames = true) := by
  decide

/-- C2 (amended): `cast_xsd` would indeed normalize both literals to
`"alice"`, but `isEquivalent` never invokes it: the right-hand sides are
compared by raw equality (plus the type-variable and `isSameType` probes),
so the two assertions are reported not equivalent. -/
theorem isEquivalent_alice_no_normalization :
    cast_xsd (.pstr "Alice") (xsd "string") = .ok (.pstr "alice") ∧
    cast_xsd (.pstr "ALICE") (xsd "string") = .ok (.pstr "alice") ∧
    isEquivalent assertionAlice assertionALICE cacheNames = false :=
  ⟨rfl, rfl, by decide⟩

/-- C3 counterexample: a predicate with no entry in the index does not give
support 0 — the plain-dict subscript raises `KeyError` (modelled `none`). -/
theorem predicate_frequency_missing_predicate :
    predicate_frequency [] assertionOnP [exS1] = none ∧
    predicate_frequency [] assertionOnP [exS1] ≠ some 0 := by
  decide

theorem DictDefault.containsKey_eq_decide {α β : Type} [DecidableEq α] (d : DictDefault α β)
    (k : α) : d.containsKey k = decide (k ∈ d.keyList) := by
  by_cases h : k ∈ d.keyList
  · rw [decide_eq_true h]
    exact (lookupA_isSome_iff_mem_keys d.store k).mpr h
  · rw [decide_eq_false h]
    cases hck : d.containsKey k with
    | false => rfl
    | true => exact absurd ((lookupA_isSome_iff_mem_keys d.store k).mp hck) h

/-- C3 (amended): whenever the assertion's predicate is present in the map,
`predicate_frequency` returns the cardinality of the intersection of the
domain with the key set of the predicate's forward map, and the result never
exceeds the size of the domain; when the predicate has no entry the subscript
fails (`KeyError`) instead of returning 0. -/
theorem predicate_frequency_spec (pm : List (Node × PredEntry)) (a : Assertion)
    (dom : List Node) (e : PredEntry) (h : lookupA pm a.predicate = some e) :
    predicate_frequency pm a dom =
      some ((dom.filter (fun s => decide (s ∈ e.forwards.keyList))).length) ∧
    (∀ n, predicate_frequency pm a dom = some n → n ≤ dom.length) := by
  have hfe : predicate_frequency pm a dom =
      some ((dom.filter (fun s => e.forwards.containsKey s)).length) := by
    unfold predicate_frequency
    rw [h]
  have hf : dom.filter (fun s => e.forwards.containsKey s) =
      dom.filter (fun s => decide (s ∈ e.forwards.keyList)) := by
    apply List.filter_congr
    intro s _
    exact DictDefault.containsKey_eq_decide e.forwards s
  constructor
  · rw [hfe, hf]
  · intro n hn
    rw [hfe] at hn
    have hn2 : (dom.filter (fun s => e.forwards.containsKey s)).length = n := by
      injection hn
    rw [← hn2]
    exact List.length_filter_le _ _

theorem predicate_frequency_spec_witness :
    predicate_frequency (generate_predicate_map gInts) assertionOnP [exS1, exS2, exP] =
      some 2 := by
  have h := predicate_frequency_spec (generate_predicate_map gInts) assertionOnP
      [exS1, exS2, exP]
      ⟨⟨[], [(exS1, [litIntA]), (exS2, [litIntB])]⟩,
       ⟨[], [(litIntA, [exS1]), (litIntB, [exS2])]⟩⟩
      (by rfl)
  rw [h.1]
  decide

theorem lhsGate_swap (a b : Term) : lhsGate a b = lhsGate b a := by
  cases a <;> cases b <;> try rfl
  exact beq_swap _ _

theorem rhsBothTypeVar_swap (a b : Term) : rhsBothTypeVar a b = rhsBothTypeVar b a := by
  cases a <;> cases b <;> try rfl
  all_goals exact beq_swap _ _

theorem bne_swap {α : Type} [DecidableEq α] (x y : α) : (x != y) = (y != x) := by
  simp only [bne]
  rw [beq_swap]

/-- C9: `isEquivalent` is symmetric — the left-hand-side/predicate gate is
symmetric in its two arguments, the raw right-hand-side comparison and the
type-variable comparison are symmetric, and `isSameType` is probed in both
orientations. -/
theorem isEquivalent_symm (A B : Assertion) (c : Cache) :
    isEquivalent A B c = isEquivalent B A c := by
  unfold isEquivalent
  rw [lhsGate_swap B.lhs A.lhs, bne_swap B.predicate A.predicate,
      beq_swap B.rhs A.rhs, rhsBothTypeVar_swap B.rhs A.rhs]
  by_cases hgate : (!(lhsGate A.lhs B.lhs) || A.predicate != B.predicate) = true
  · rw [if_pos hgate, if_pos hgate]
  · rw [if_neg hgate, if_neg hgate]
    cases isSameType A.rhs B.rhs c <;> cases isSameType B.rhs A.rhs c <;> simp

/-- C4 counterexample: an exception other than `ValueError` does escape
`cast_xsd`.  A literal whose Python value is the integer `5` normalized under
a datetime-family datatype reaches `datetime.fromisoformat(5)`, which raises
`TypeError`; the `except ValueError` handler does not catch it. -/
theorem cast_xsd_typeError_escapes :
    cast_xsd (.pint 5) (xsd "dateTime") = .error .typeError := by
  rfl

/-- C4 (amended): `cast_xsd` either returns a value (the converted one, or on
a `ValueError` the value it held at the failure point, unchanged for inputs
that fail conversion) — no `ValueError` ever escapes — but a `TypeError`
raised inside the numeric or datetime branch propagates to the caller. -/
theorem cast_xsd_no_valueError_escape (v : PyVal) (d : String) :
    (∃ w, cast_xsd v d = .ok w) ∨ cast_xsd v d = .error .typeError := by
  unfold cast_xsd
  split
  · split
    · exact Or.inl ⟨_, rfl⟩
    · exact Or.inl ⟨_, rfl⟩
    · exact Or.inr rfl
  · split
    · split
      · exact Or.inl ⟨_, rfl⟩
      · exact Or.inl ⟨_, rfl⟩
      · exact Or.inr rfl
    · split
      · split
        · exact Or.inl ⟨_, rfl⟩
        · exact Or.inl ⟨_, rfl⟩
      · split
        · exact Or.inl ⟨_, rfl⟩
        · exact Or.inl ⟨_, rfl⟩

theorem updFwd_backwards (t : Triple) (e : PredEntry) : (updFwd t e).backwards = e.backwards := by
  unfold updFwd
  rfl

theorem updBwd_forwards (t : Triple) (e : PredEntry) : (updBwd t e).forwards = e.forwards := by
  unfold updBwd
  rfl

theorem updFwd_forwards_dflt (t : Triple) (e : PredEntry) :
    (updFwd t e).forwards.dflt = e.forwards.dflt := by
  unfold updFwd
  split <;> rfl

theorem updBwd_backwards_dflt (t : Triple) (e : PredEntry) :
    (updBwd t e).backwards.dflt = e.backwards.dflt := by
  unfold updBwd
  split <;> rfl

theorem updFwd_mem (t : Triple) (e : PredEntry) : t.o ∈ (updFwd t e).forwards.get t.s := by
  unfold updFwd
  split
  · rw [DictDefault.get_set_self]
    exact (mem_nsAdd _ _ _).mpr (Or.inl rfl)
  · rw [DictDefault.get_set_self]
    exact List.mem_singleton.mpr rfl

theorem updBwd_mem (t : Triple) (e : PredEntry) : t.s ∈ (updBwd t e).backwards.get t.o := by
  unfold updBwd
  split
  · rw [DictDefault.get_set_self]
    exact (mem_nsAdd _ _ _).mpr (Or.inl rfl)
  · rw [DictDefault.get_set_self]
    exact List.mem_singleton.mpr rfl

theorem updFwd_mem_preserve (t : Triple) (e : PredEntry) (x s0 : Node)
    (hd : e.forwards.dflt = []) (hx : x ∈ e.forwards.get s0) :
    x ∈ (updFwd t e).forwards.get s0 := by
  unfold updFwd
  by_cases hs : s0 = t.s
  · subst hs
    split
    · rw [DictDefault.get_set_self]
      exact (mem_nsAdd _ _ _).mpr (Or.inr hx)
    · rename_i hck
      rw [DictDefault.get_of_not_containsKey _ _ (Bool.not_eq_true _ ▸ hck), hd] at hx
      cases hx
  · split <;> rw [DictDefault.get_set_ne _ _ _ _ hs] <;> exact hx

theorem updBwd_mem_preserve (t : Triple) (e : PredEntry) (x o0 : Node)
    (hd : e.backwards.dflt = []) (hx : x ∈ e.backwards.get o0) :
    x ∈ (updBwd t e).backwards.get o0 := by
  unfold updBwd
  by_cases ho : o0 = t.o
  · subst ho
    split
    · rw [DictDefault.get_set_self]
      exact (mem_nsAdd _ _ _).mpr (Or.inr hx)
    · rename_i hck
      rw [DictDefault.get_of_not_containsKey _ _ (Bool.not_eq_true _ ▸ hck), hd] at hx
      cases hx
  · split <;> rw [DictDefault.get_set_ne _ _ _ _ ho] <;> exact hx

theorem ensurePred_lookupA_ne (pm : List (Node × PredEntry)) (p p2 : Node) (h : p2 ≠ p) :
    lookupA (ensurePred pm p) p2 = lookupA pm p2 := by
  unfold ensurePred
  split
  · rfl
  · rw [lookupA_updateA_ne _ _ _ _ h]

theorem ensurePred_of_some (pm : List (Node × PredEntry)) (p : Node) (e : PredEntry)
    (h : lookupA pm p = some e) : ensurePred pm p = pm := by
  unfold ensurePred
  rw [h]
  rfl

theorem ensurePred_dflts (pm : List (Node × PredEntry)) (p : Node) (h : pmDfltsEmpty pm) :
    pmDfltsEmpty (ensurePred pm p) := by
  unfold ensurePred
  split
  · exact h
  · intro p2 e hl
    by_cases hp : p2 = p
    · subst hp
      rw [lookupA_updateA_self] at hl
      injection hl with he
      rw [← he]
      exact ⟨rfl, rfl⟩
    · rw [lookupA_updateA_ne _ _ _ _ hp] at hl
      exact h p2 e hl

theorem getD_entry_dflts (pm : List (Node × PredEntry)) (p : Node) (h : pmDfltsEmpty pm) :
    ((lookupA pm p).getD emptyPredEntry).forwards.dflt = [] ∧
    ((lookupA pm p).getD emptyPredEntry).backwards.dflt = [] := by
  cases hl : lookupA pm p with
  | none => exact ⟨rfl, rfl⟩
  | some e0 => exact h p e0 hl

theorem predStep_dflts (pm : List (Node × PredEntry)) (t : Triple) (h : pmDfltsEmpty pm) :
    pmDfltsEmpty (predStep pm t) := by
  unfold predStep
  have h1 := ensurePred_dflts pm t.p h
  intro p2 e hl
  by_cases hp : p2 = t.p
  · subst hp
    rw [lookupA_updateA_self] at hl
    injection hl with he
    have he0 := getD_entry_dflts (ensurePred pm t.p) t.p h1
    rw [← he]
    constructor
    · rw [updBwd_forwards, updFwd_forwards_dflt]
      exact he0.1
    · rw [updBwd_backwards_dflt, updFwd_backwards]
      exact he0.2
  · rw [lookupA_updateA_ne _ _ _ _ hp, ensurePred_lookupA_ne pm t.p p2 hp] at hl
    exact h p2 e hl

theorem predStep_establishes (pm : List (Node × PredEntry)) (t : Triple) :
    pmHolds (predStep pm t) t := by
  unfold predStep pmHolds
  refine ⟨_, lookupA_updateA_self _ _ _, ?_, ?_⟩
  · rw [updBwd_forwards]
    exact updFwd_mem t _
  · exact updBwd_mem t _

theorem predStep_preserves (pm : List (Node × PredEntry)) (t t2 : Triple)
    (hd : pmDfltsEmpty pm) (h : pmHolds pm t2) : pmHolds (predStep pm t) t2 := by
  obtain ⟨e0, hl0, hf0, hb0⟩ := h
  unfold predStep pmHolds
  by_cases hp : t2.p = t.p
  · have hens : ensurePred pm t.p = pm := by
      rw [← hp]
      exact ensurePred_of_some pm t2.p e0 hl0
    rw [hens, hp]
    refine ⟨_, lookupA_updateA_self _ _ _, ?_, ?_⟩
    · rw [updBwd_forwards]
      have hget : (lookupA pm t.p).getD emptyPredEntry = e0 := by
        rw [← hp, hl0]
        rfl
      rw [hget]
      exact updFwd_mem_preserve t e0 t2.o t2.s (hd t2.p e0 hl0).1 hf0
    · have hget : (lookupA pm t.p).getD emptyPredEntry = e0 := by
        rw [← hp, hl0]
        rfl
      rw [hget]
      apply updBwd_mem_preserve t (updFwd t e0) t2.s t2.o
      · rw [updFwd_backwards]
        exact (hd t2.p e0 hl0).2
      · rw [updFwd_backwards]
        exact hb0
  · refine ⟨e0, ?_, hf0, hb0⟩
    rw [lookupA_updateA_ne _ _ _ _ hp, ensurePred_lookupA_ne pm t.p t2.p hp]
    exact hl0

theorem pm_foldl_inv (l : List Triple) (pm : List (Node × PredEntry)) (t2 : Triple)
    (hd : pmDfltsEmpty pm) (h : pmHolds pm t2 ∨ t2 ∈ l) :
    pmHolds (l.foldl predStep pm) t2 := by
  revert hd h
  induction l generalizing pm with
  | nil =>
    intro hd h
    rcases h with h | h
    · exact h
    · cases h
  | cons a l ih =>
    intro hd h
    apply ih (predStep pm a) (predStep_dflts pm a hd)
    rcases h with h | h
    · exact Or.inl (predStep_preserves pm a t2 hd h)
    · rcases List.mem_cons.mp h with heq | hl
      · refine Or.inl ?_
        rw [heq]
        exact predStep_establishes pm a
      · exact Or.inr hl

/-- C6: for every triple `(s, p, o)` of the snapshot, the Predicate Index
built by `generate_predicate_map` satisfies `o ∈ forwards[p][s]` and
`s ∈ backwards[p][o]` — the forward and backward adjacency maps are mutually
consistent, with members accumulated rather than overwritten. -/
theorem generate_predicate_map_consistent (g : List Triple) (t : Triple) (h : t ∈ g) :
    ∃ e, lookupA (generate_predicate_map g) t.p = some e ∧
      t.o ∈ e.forwards.get t.s ∧ t.s ∈ e.backwards.get t.o := by
  have hd : pmDfltsEmpty [] := by
    intro p e hl
    simp [lookupA] at hl
  exact pm_foldl_inv g [] t hd (Or.inr h)

theorem generate_predicate_map_consistent_witness :
    ∃ e, lookupA (generate_predicate_map gInts) exP = some e ∧
      litIntA ∈ e.forwards.get exS1 ∧ exS1 ∈ e.backwards.get litIntA := by
  have h := generate_predicate_map_consistent gInts ⟨exS1, exP, litIntA⟩
      (by simp [gInts])
  exact h

theorem ensureT2O_objectToType (c : Node) (m : ObjectTypeMap) :
    (ensureT2O c m).objectToType = m.objectToType := by
  unfold ensureT2O
  split <;> rfl

theorem ensureO2T_typeToObject (e : Node) (m : ObjectTypeMap) :
    (ensureO2T e m).typeToObject = m.typeToObject := by
  unfold ensureO2T
  split <;> rfl

theorem ensureT2O_get (c : Node) (m : ObjectTypeMap) (h : otmWF m) (k : Node) :
    (ensureT2O c m).typeToObject.get k = m.typeToObject.get k := by
  unfold ensureT2O
  split
  · rename_i hck
    show (m.typeToObject.set c []).get k = _
    by_cases hk : k = c
    · subst hk
      rw [DictDefault.get_set_self,
          DictDefault.get_of_not_containsKey _ _ (Bool.not_eq_true _ ▸ hck), h.2]
    · rw [DictDefault.get_set_ne _ _ _ _ hk]
  · rfl

theorem ensureO2T_get (e : Node) (m : ObjectTypeMap) (h : otmWF m) (k : Node) :
    (ensureO2T e m).objectToType.get k = m.objectToType.get k := by
  unfold ensureO2T
  split
  · rename_i hck
    show (m.objectToType.set e []).get k = _
    by_cases hk : k = e
    · subst hk
      rw [DictDefault.get_set_self,
          DictDefault.get_of_not_containsKey _ _ (Bool.not_eq_true _ ▸ hck), h.1]
    · rw [DictDefault.get_set_ne _ _ _ _ hk]
  · rfl

theorem ensureT2O_wf (c : Node) (m : ObjectTypeMap) (h : otmWF m) : otmWF (ensureT2O c m) := by
  unfold ensureT2O
  split
  · exact ⟨h.1, h.2⟩
  · exact h

theorem ensureO2T_wf (e : Node) (m : ObjectTypeMap) (h : otmWF m) : otmWF (ensureO2T e m) := by
  unfold ensureO2T
  split
  · exact ⟨h.1, h.2⟩
  · exact h

theorem addCtype_wf (e c : Node) (m : ObjectTypeMap) (h : otmWF m) : otmWF (addCtype e m c) := by
  have h2 := ensureO2T_wf e _ (ensureT2O_wf c m h)
  exact ⟨h2.1, h2.2⟩

theorem addCtype_o2t_mem (e c : Node) (m : ObjectTypeMap) (h : otmWF m) (e2 x : Node) :
    x ∈ (addCtype e m c).objectToType.get e2 ↔
      ((e2 = e ∧ x = c) ∨ x ∈ m.objectToType.get e2) := by
  have h1 := ensureT2O_wf c m h
  have hget : ∀ k, (ensureO2T e (ensureT2O c m)).objectToType.get k =
      m.objectToType.get k := by
    intro k
    rw [ensureO2T_get _ _ h1, ensureT2O_objectToType]
  unfold addCtype
  by_cases he : e2 = e
  · subst he
    show x ∈ ((ensureO2T e2 (ensureT2O c m)).objectToType.set e2 _).get e2 ↔ _
    rw [DictDefault.get_set_self, mem_nsAdd, hget]
    simp
  · show x ∈ ((ensureO2T e (ensureT2O c m)).objectToType.set e _).get e2 ↔ _
    rw [DictDefault.get_set_ne _ _ _ _ he, hget]
    simp [he]

theorem addCtype_t2o_mem (e c : Node) (m : ObjectTypeMap) (h : otmWF m) (c2 e2 : Node) :
    e2 ∈ (addCtype e m c).typeToObject.get c2 ↔
      ((c2 = c ∧ e2 = e) ∨ e2 ∈ m.typeToObject.get c2) := by
  have h1 := ensureT2O_wf c m h
  have hget : ∀ k, (ensureO2T e (ensureT2O c m)).typeToObject.get k =
      m.typeToObject.get k := by
    intro k
    rw [ensureO2T_typeToObject, ensureT2O_get _ _ h]
  unfold addCtype
  by_cases hc : c2 = c
  · subst hc
    show e2 ∈ ((ensureO2T e (ensureT2O c2 m)).typeToObject.set c2 _).get c2 ↔ _
    rw [DictDefault.get_set_self, mem_nsAdd, hget]
    simp
  · show e2 ∈ ((ensureO2T e (ensureT2O c m)).typeToObject.set c _).get c2 ↔ _
    rw [DictDefault.get_set_ne _ _ _ _ hc, hget]
    simp [hc]

theorem addCtype_fold_wf (e : Node) (cs : List Node) (m : ObjectTypeMap) (h : otmWF m) :
    otmWF (cs.foldl (addCtype e) m) := by
  induction cs generalizing m with
  | nil => exact h
  | cons c cs ih => exact ih _ (addCtype_wf e c m h)

theorem addCtype_fold_o2t (e : Node) (cs : List Node) (m : ObjectTypeMap) (h : otmWF m)
    (e2 x : Node) :
    x ∈ (cs.foldl (addCtype e) m).objectToType.get e2 ↔
      ((e2 = e ∧ x ∈ cs) ∨ x ∈ m.objectToType.get e2) := by
  induction cs generalizing m with
  | nil => simp
  | cons c cs ih =>
    rw [List.foldl_cons, ih _ (addCtype_wf e c m h), addCtype_o2t_mem e c m h e2 x,
        List.mem_cons]
    tauto

theorem addCtype_fold_t2o (e : Node) (cs : List Node) (m : ObjectTypeMap) (h : otmWF m)
    (c2 e2 : Node) :
    e2 ∈ (cs.foldl (addCtype e) m).typeToObject.get c2 ↔
      ((e2 = e ∧ c2 ∈ cs) ∨ e2 ∈ m.typeToObject.get c2) := by
  induction cs generalizing m with
  | nil => simp
  | cons c cs ih =>
    rw [List.foldl_cons, ih _ (addCtype_wf e c m h), addCtype_t2o_mem e c m h c2 e2,
        List.mem_cons]
    tauto

theorem processSubject_inv (g : List Triple) (done : List Node) (m : ObjectTypeMap)
    (e : Node) (h : otmInv g done m) : otmInv g (done ++ [e]) (processSubject g m e) := by
  obtain ⟨hwf, ho2t, ht2o⟩ := h
  cases e with
  | uri u =>
    refine ⟨addCtype_fold_wf _ _ _ hwf, ?_, ?_⟩
    · intro e2 x
      show x ∈ ((ctypesOf g (.uri u)).foldl (addCtype (.uri u)) m).objectToType.get e2 ↔ _
      rw [addCtype_fold_o2t _ _ _ hwf, ho2t e2 x]
      by_cases he : e2 = Node.uri u <;> simp [he, List.mem_append]
    · intro c e2
      show e2 ∈ ((ctypesOf g (.uri u)).foldl (addCtype (.uri u)) m).typeToObject.get c ↔ _
      rw [addCtype_fold_t2o _ _ _ hwf, ht2o c e2]
      by_cases he : e2 = Node.uri u <;> simp [he, List.mem_append]
  | bnode b =>
    refine ⟨hwf, ?_, ?_⟩
    · intro e2 x
      show x ∈ m.objectToType.get e2 ↔ _
      rw [ho2t e2 x]
      constructor
      · rintro ⟨hu, hdone, hct⟩
        exact ⟨hu, List.mem_append.mpr (Or.inl hdone), hct⟩
      · rintro ⟨⟨u2, rfl⟩, hmem, hct⟩
        rcases List.mem_append.mp hmem with hdone | hone
        · exact ⟨⟨u2, rfl⟩, hdone, hct⟩
        · rw [List.mem_singleton] at hone
          exact Node.noConfusion hone
    · intro c e2
      show e2 ∈ m.typeToObject.get c ↔ _
      rw [ht2o c e2]
      constructor
      · rintro ⟨hu, hdone, hct⟩
        exact ⟨hu, List.mem_append.mpr (Or.inl hdone), hct⟩
      · rintro ⟨⟨u2, rfl⟩, hmem, hct⟩
        rcases List.mem_append.mp hmem with hdone | hone
        · exact ⟨⟨u2, rfl⟩, hdone, hct⟩
        · rw [List.mem_singleton] at hone
          exact Node.noConfusion hone
  | lit lex dt lang =>
    refine ⟨hwf, ?_, ?_⟩
    · intro e2 x
      show x ∈ m.objectToType.get e2 ↔ _
      rw [ho2t e2 x]
      constructor
      · rintro ⟨hu, hdone, hct⟩
        exact ⟨hu, List.mem_append.mpr (Or.inl hdone), hct⟩
      · rintro ⟨⟨u2, rfl⟩, hmem, hct⟩
        rcases List.mem_append.mp hmem with hdone | hone
        · exact ⟨⟨u2, rfl⟩, hdone, hct⟩
        · rw [List.mem_singleton] at hone
          exact Node.noConfusion hone
    · intro c e2
      show e2 ∈ m.typeToObject.get c ↔ _
      rw [ht2o c e2]
      constructor
      · rintro ⟨hu, hdone, hct⟩
        exact ⟨hu, List.mem_append.mpr (Or.inl hdone), hct⟩
      · rintro ⟨⟨u2, rfl⟩, hmem, hct⟩
        rcases List.mem_append.mp hmem with hdone | hone
        · exact ⟨⟨u2, rfl⟩, hdone, hct⟩
        · rw [List.mem_singleton] at hone
          exact Node.noConfusion hone

theorem otm_foldl_inv (subs : List Node) (g : List Triple) (done : List Node)
    (m : ObjectTypeMap) (h : otmInv g done m) :
    otmInv g (done ++ subs) (subs.foldl (processSubject g) m) := by
  induction subs generalizing done m with
  | nil => simpa using h
  | cons a l ih =>
    have h2 := processSubject_inv g done m a h
    have h3 := ih (done ++ [a]) (processSubject g m a) h2
    simpa [List.append_assoc] using h3

theorem otm_init_inv (g : List Triple) : otmInv g [] ⟨⟨[], []⟩, ⟨[], []⟩⟩ := by
  refine ⟨⟨rfl, rfl⟩, ?_, ?_⟩ <;> intro a b <;> simp [DictDefault.get, lookupA]

/-- C7 (amended): in the Entity-Type Index, every `URIRef` subject (blank-node
subjects are skipped by the builder) is mapped to exactly its asserted classes
— or to exactly the single generic class `rdfs:Class` when it has none — and
is a member of the bucket of each of those classes. -/
theorem generate_object_type_map_spec (g : List Triple) (u : String)
    (h : Node.uri u ∈ g.map (·.s)) :
    (∀ x, x ∈ (generate_object_type_map g).objectToType.get (.uri u) ↔
        x ∈ ctypesOf g (.uri u)) ∧
    (∀ c, c ∈ ctypesOf g (.uri u) →
        Node.uri u ∈ (generate_object_type_map g).typeToObject.get c) := by
  have hinv := otm_foldl_inv (g.map (·.s)) g [] ⟨⟨[], []⟩, ⟨[], []⟩⟩ (otm_init_inv g)
  rw [List.nil_append] at hinv
  obtain ⟨hwf, ho2t, ht2o⟩ := hinv
  constructor
  · intro x
    show x ∈ ((g.map (·.s)).foldl (processSubject g) ⟨⟨[], []⟩, ⟨[], []⟩⟩).objectToType.get
        (.uri u) ↔ _
    rw [ho2t (.uri u) x]
    constructor
    · rintro ⟨_, _, hct⟩
      exact hct
    · intro hct
      exact ⟨⟨u, rfl⟩, h, hct⟩
  · intro c hc
    show Node.uri u ∈
        ((g.map (·.s)).foldl (processSubject g) ⟨⟨[], []⟩, ⟨[], []⟩⟩).typeToObject.get c
    rw [ht2o c (.uri u)]
    exact ⟨⟨u, rfl⟩, h, hc⟩

theorem generate_object_type_map_spec_witness :
    exPerson ∈ (generate_object_type_map [⟨exS1, rdfType, exPerson⟩]).objectToType.get exS1 := by
  have h := generate_object_type_map_spec [⟨exS1, rdfType, exPerson⟩]
      "http://example.org/s1" (by decide)
  exact (h.1 exPerson).mpr (by decide)

/-- C7 counterexample: a blank-node subject is an entity (not a literal), yet
the builder's `isinstance(e, URIRef)` guard skips it, so it is mapped to the
empty set — not to exactly the single generic class as claimed. -/
theorem generate_object_type_map_skips_bnode :
    Node.bnode "b" ∈ gBnode.map (·.s) ∧
    (generate_object_type_map gBnode).objectToType.get (.bnode "b") = [] ∧
    rdfsClass ∉ (generate_object_type_map gBnode).objectToType.get (.bnode "b") := by
  decide

theorem toNat_ofNat_small (n : Nat) (h : n < 55296) : (Char.ofNat n).toNat = n := by
  unfold Char.ofNat
  rw [dif_pos (Or.inl h)]
  simp [Char.ofNatAux, Char.toNat, UInt32.toNat]

theorem pyLowerChar_idem (c : Char) : pyLowerChar (pyLowerChar c) = pyLowerChar c := by
  by_cases h : 65 ≤ c.toNat ∧ c.toNat ≤ 90
  · have h1 : pyLowerChar c = Char.ofNat (c.toNat + 32) := by
      unfold pyLowerChar
      rw [if_pos h]
    have ht : (Char.ofNat (c.toNat + 32)).toNat = c.toNat + 32 :=
      toNat_ofNat_small _ (by omega)
    rw [h1]
    unfold pyLowerChar
    rw [if_neg (by rw [ht]; omega)]
  · have h1 : pyLowerChar c = c := by
      unfold pyLowerChar
      rw [if_neg h]
    rw [h1, h1]

theorem isPySpace_pyLowerChar (c : Char) : isPySpace (pyLowerChar c) = isPySpace c := by
  by_cases h : 65 ≤ c.toNat ∧ c.toNat ≤ 90
  · have h1 : pyLowerChar c = Char.ofNat (c.toNat + 32) := by
      unfold pyLowerChar
      rw [if_pos h]
    have ht : (Char.ofNat (c.toNat + 32)).toNat = c.toNat + 32 :=
      toNat_ofNat_small _ (by omega)
    rw [h1]
    unfold isPySpace
    rw [ht]
    have hfalse : ∀ m : Nat, 65 ≤ m → m ≤ 122 →
        (decide (m = 32) || decide (m = 9) || decide (m = 10) || decide (m = 13) ||
          decide (m = 11) || decide (m = 12)) = false := by
      intro m hm1 hm2
      simp
      omega
    rw [hfalse _ (by omega) (by omega), hfalse _ (by omega) (by omega)]
  · have h1 : pyLowerChar c = c := by
      unfold pyLowerChar
      rw [if_neg h]
    rw [h1]

theorem pyLower_idem (l : List Char) : pyLower (pyLower l) = pyLower l := by
  unfold pyLower
  rw [List.map_map]
  apply List.map_congr_left
  intro c _
  show pyLowerChar (pyLowerChar c) = pyLowerChar c
  exact pyLowerChar_idem c

theorem stripChars_def (x : List Char) :
    stripChars x = ((x.dropWhile isPySpace).reverse.dropWhile isPySpace).reverse := rfl

theorem stripChars_pyLower (l : List Char) :
    stripChars (pyLower l) = pyLower (stripChars l) := by
  have hpf : (isPySpace ∘ pyLowerChar) = isPySpace := by
    funext c
    exact isPySpace_pyLowerChar c
  unfold stripChars pyLower
  rw [List.dropWhile_map, hpf, ← List.map_reverse, List.dropWhile_map, hpf, ← List.map_reverse]

theorem dropWhile_head_false (p : Char → Bool) (l : List Char)
    (h : ∀ c, l.head? = some c → p c = false) : l.dropWhile p = l := by
  cases l with
  | nil => rfl
  | cons a t =>
    rw [List.dropWhile_cons, h a rfl]
    simp

theorem head_dropWhile_false (p : Char → Bool) (l : List Char) :
    ∀ c, (l.dropWhile p).head? = some c → p c = false := by
  induction l with
  | nil =>
    intro c hc
    cases hc
  | cons a t ih =>
    intro c hc
    rw [List.dropWhile_cons] at hc
    by_cases hp : p a = true
    · rw [if_pos hp] at hc
      exact ih c hc
    · rw [if_neg hp] at hc
      have ha : a = c := by
        simpa using hc
      rw [← ha]
      exact (Bool.not_eq_true _) ▸ hp

theorem dropWhile_idem (p : Char → Bool) (l : List Char) :
    (l.dropWhile p).dropWhile p = l.dropWhile p :=
  dropWhile_head_false p _ (head_dropWhile_false p l)

theorem stripChars_head_false (l : List Char) :
    ∀ c, (stripChars l).head? = some c → isPySpace c = false := by
  intro c hc
  rw [stripChars_def, List.head?_reverse] at hc
  obtain ⟨t, ht⟩ := List.dropWhile_suffix (l := (l.dropWhile isPySpace).reverse) isPySpace
  have hne : (l.dropWhile isPySpace).reverse.dropWhile isPySpace ≠ [] := by
    intro hnil
    rw [hnil] at hc
    cases hc
  have h1 : ((l.dropWhile isPySpace).reverse).getLast? = some c := by
    rw [← ht, List.getLast?_append_of_ne_nil _ hne]
    exact hc
  rw [List.getLast?_reverse] at h1
  exact head_dropWhile_false isPySpace l c h1

theorem stripChars_idem (l : List Char) : stripChars (stripChars l) = stripChars l := by
  have h1 : (stripChars l).dropWhile isPySpace = stripChars l :=
    dropWhile_head_false _ _ (stripChars_head_false l)
  have h2 : (stripChars l).reverse = (l.dropWhile isPySpace).reverse.dropWhile isPySpace := by
    rw [stripChars_def, List.reverse_reverse]
  have h3 : (stripChars l).reverse.dropWhile isPySpace = (stripChars l).reverse := by
    rw [h2]
    exact dropWhile_idem _ _
  rw [stripChars_def (stripChars l), h1, h3, List.reverse_reverse]

theorem stripLower_idem (s : List Char) :
    pyLower (stripChars (pyLower (stripChars s))) = pyLower (stripChars s) := by
  rw [stripChars_pyLower, stripChars_idem, pyLower_idem]

theorem digitChar_isDigit (k : Nat) (h : k < 10) : (Nat.digitChar k).isDigit = true := by
  interval_cases k <;> decide

theorem natChars_digits (n : Nat) : ∀ c ∈ natChars n, c.isDigit = true := by
  induction n using Nat.strong_induction_on with
  | _ n ih =>
    unfold natChars
    split
    · rename_i h
      intro c hc
      rw [List.mem_singleton] at hc
      subst hc
      exact digitChar_isDigit n h
    · rename_i h
      intro c hc
      rw [List.mem_append] at hc
      rcases hc with hc | hc
      · exact ih (n / 10) (Nat.div_lt_self (by omega) (by omega)) c hc
      · rw [List.mem_singleton] at hc
        subst hc
        exact digitChar_isDigit _ (Nat.mod_lt _ (by omega))

theorem natChars_ne_dash_cons (n : Nat) (l : List Char) : natChars n ≠ '-' :: l := by
  intro h
  have hd := natChars_digits n '-' (by rw [h]; exact List.mem_cons_self _ _)
  exact absurd hd (by decide)

theorem gFragChars_intChars (n : Int) (d : String) :
    gFragChars (pyIntChars n) d = none := by
  unfold gFragChars pyIntChars
  by_cases hn : n < 0
  · rw [if_pos hn]
    split
    · rename_i heq
      injection heq with h1 h2
      exact absurd h2 (natChars_ne_dash_cons _ _)
    · rename_i heq
      injection heq with h1 h2
      exact absurd h2 (natChars_ne_dash_cons _ _)
    · rename_i heq
      injection heq with h1 h2
      exact absurd h2 (natChars_ne_dash_cons _ _)
    · rfl
  · rw [if_neg hn]
    split
    · rename_i heq
      exact absurd heq (natChars_ne_dash_cons _ _)
    · rename_i heq
      exact absurd heq (natChars_ne_dash_cons _ _)
    · rename_i heq
      exact absurd heq (natChars_ne_dash_cons _ _)
    · rfl

theorem gFrag_to_days_intChars (n : Int) (d : String) :
    gFrag_to_days (String.mk (pyIntChars n)) d = none :=
  gFragChars_intChars n d

theorem pyFloat_ok_shape (v w : PyVal) (h : pyFloat v = .ok w) : ∃ q, w = PyVal.pfloat q := by
  cases v with
  | pfloat q =>
    injection h with h2
    exact ⟨q, h2.symm⟩
  | pint n =>
    injection h with h2
    exact ⟨(n : Rat), h2.symm⟩
  | pstr s =>
    have h2 : (match parseFloat s with
      | some q => Except.ok (PyVal.pfloat q)
      | none => (Except.error PyErr.valueError : Except PyErr PyVal)) = Except.ok w := h
    cases hp : parseFloat s with
    | some q =>
      rw [hp] at h2
      injection h2 with h3
      exact ⟨q, h3.symm⟩
    | none =>
      rw [hp] at h2
      cases h2
  | pdate y m d => cases h
  | pdatetime y m d hh mm ss => cases h

/-- C5 counterexample: in the datetime family `cast_xsd` is not idempotent.
The first application parses `"2020-01-01T15:30:00"` into a datetime; the
second application sends that datetime through
`datetime.combine(node, time()).isoformat()` — `combine` ignores the time
components of a `datetime` argument — so the time-of-day is reset to
midnight and the two results differ. -/
theorem cast_xsd_not_idempotent_datetime :
    cast_xsd (.pstr "2020-01-01T15:30:00") (xsd "dateTime") =
      .ok (.pdatetime 2020 1 1 15 30 0) ∧
    (cast_xsd (.pstr "2020-01-01T15:30:00") (xsd "dateTime")).bind
        (fun w => cast_xsd w (xsd "dateTime")) = .ok (.pdatetime 2020 1 1 0 0 0) ∧
    (Except.ok (PyVal.pdatetime 2020 1 1 0 0 0) : Except PyErr PyVal) ≠
      .ok (.pdatetime 2020 1 1 15 30 0) := by
  refine ⟨rfl, rfl, ?_⟩
  intro hcontra
  injection hcontra with h2
  exact absurd h2 (by decide)

/-- C5 (amended): `cast_xsd` is idempotent for every datatype outside the
datetime family — the numeric, date-fragment and string conversions are
stable under re-application, and unknown datatypes are returned unchanged —
but not for the datetime family, where a second application resets the parsed
time-of-day to midnight. -/
theorem cast_xsd_idem (v : PyVal) (d : String) (h : d ∉ XSD_DATETIME) :
    (cast_xsd v d).bind (fun w => cast_xsd w d) = cast_xsd v d := by
  by_cases h1 : d ∈ XSD_NUMERIC
  · unfold cast_xsd
    rw [if_pos h1]
    cases hf : pyFloat v with
    | ok w =>
      obtain ⟨q, rfl⟩ := pyFloat_ok_shape v w hf
      show cast_xsd (PyVal.pfloat q) d = Except.ok (PyVal.pfloat q)
      unfold cast_xsd
      rw [if_pos h1]
      rfl
    | error e =>
      cases e with
      | valueError =>
        show cast_xsd v d = Except.ok v
        unfold cast_xsd
        rw [if_pos h1, hf]
      | typeError => rfl
  · by_cases h3 : d ∈ XSD_DATEFRAG
    · unfold cast_xsd
      rw [if_neg h1, if_neg h, if_pos h3]
      cases hg : gFrag_to_days (pyStr v) d with
      | some n =>
        show cast_xsd (PyVal.pint n) d = Except.ok (PyVal.pint n)
        unfold cast_xsd
        rw [if_neg h1, if_neg h, if_pos h3]
        show (match gFrag_to_days (String.mk (pyIntChars n)) d with
          | some n2 => Except.ok (PyVal.pint n2)
          | none => Except.ok (PyVal.pint n)) = Except.ok (PyVal.pint n)
        rw [gFrag_to_days_intChars]
      | none =>
        show cast_xsd v d = Except.ok v
        unfold cast_xsd
        rw [if_neg h1, if_neg h, if_pos h3, hg]
    · by_cases h4 : d ∈ XSD_STRING
      · unfold cast_xsd
        rw [if_neg h1, if_neg h, if_neg h3, if_pos h4]
        show cast_xsd (PyVal.pstr ⟨pyLower (stripChars (pyStr v).data)⟩) d =
          Except.ok (PyVal.pstr ⟨pyLower (stripChars (pyStr v).data)⟩)
        unfold cast_xsd
        rw [if_neg h1, if_neg h, if_neg h3, if_pos h4]
        show Except.ok (PyVal.pstr ⟨pyLower (stripChars (pyLower (stripChars (pyStr v).data)))⟩) =
          Except.ok (PyVal.pstr ⟨pyLower (stripChars (pyStr v).data)⟩)
        rw [stripLower_idem]
      · unfold cast_xsd
        rw [if_neg h1, if_neg h, if_neg h3, if_neg h4]
        show cast_xsd v d = Except.ok v
        unfold cast_xsd
        rw [if_neg h1, if_neg h, if_neg h3, if_neg h4]

theorem cast_xsd_idem_witness :
    (cast_xsd (.pstr "  AbC ") (xsd "string")).bind (fun w => cast_xsd w (xsd "string")) =
      cast_xsd (.pstr "  AbC ") (xsd "string") :=
  cast_xsd_idem (.pstr "  AbC ") (xsd "string") (by decide)
